import Mathlib

/-!
Verification of the patchy workflow engine (`src/git_commands.rs`,
`src/commands/run.rs`) against its natural-language specification.

The repository orchestrates an external `git` command.  We embed the
relevant functions shallowly: the repository's observable git state is a
triple of remote list, branch list and current branch, and every `git`
invocation made by the source is interpreted by `gitExec`, which mirrors
the behaviour of the corresponding git subcommand on that state.  Calls
whose success depends on the environment (network, working-tree state)
take an explicit `envFail` flag; calls whose success is determined by the
repository state alone (`remote remove`, `branch -D`, `checkout` of a
named branch) are deterministic in the state.
-/

namespace Patchy

/-- Decidable equality for `Except`, used to evaluate the embedded
functions at concrete inputs. -/
instance {ε α : Type} [DecidableEq ε] [DecidableEq α] : DecidableEq (Except ε α) := fun a b =>
  match a, b with
  | .ok x, .ok y =>
    if h : x = y then .isTrue (by rw [h]) else .isFalse (by intro hc; cases hc; exact h rfl)
  | .error x, .error y =>
    if h : x = y then .isTrue (by rw [h]) else .isFalse (by intro hc; cases hc; exact h rfl)
  | .ok _, .error _ => .isFalse (by intro hc; cases hc)
  | .error _, .ok _ => .isFalse (by intro hc; cases hc)

/-- Observable state of the repository: configured remotes, local
branches, and the currently checked-out branch. -/
structure GitState where
  remotes : List String
  branches : List String
  current : String
deriving Repr, DecidableEq

/-- Interpreter for the `git` argument vectors issued by the source code
(`git(&[...])` in `git_commands.rs` / `run.rs`).  Returns the captured
stdout (or an error, as `get_git_output` does) together with the updated
state.  `envFail` injects an environment-caused failure (network outage,
dirty tree, ...), in which case the state is unchanged. -/
def gitExec (envFail : Bool) (args : List String) (s : GitState) :
    Except String String × GitState :=
  if envFail then
    (.error ("Git command failed.\nCommand: git " ++ String.intercalate " " args), s)
  else
    match args with
    | ["remote", "add", name, _url] =>
      if name ∈ s.remotes then (.error "remote already exists", s)
      else (.ok "", { s with remotes := s.remotes ++ [name] })
    | ["remote", "remove", name] =>
      if name ∈ s.remotes then (.ok "", { s with remotes := s.remotes.erase name })
      else (.error "no such remote", s)
    | ["fetch", _rem, refspec] =>
      match refspec.splitOn ":" with
      | [_src, dst] =>
        if dst ∈ s.branches then (.error "refusing to clobber existing branch", s)
        else (.ok "", { s with branches := s.branches ++ [dst] })
      | _ => (.error "bad refspec", s)
    | ["checkout", b] =>
      if b ∈ s.branches then (.ok "", { s with current := b })
      else (.error "no such branch", s)
    | ["branch", "-D", b] =>
      if b ∈ s.branches ∧ b ≠ s.current then
        (.ok "", { s with branches := s.branches.erase b })
      else (.error "cannot delete branch", s)
    | ["branch", "--delete", "--force", b] =>
      if b ∈ s.branches ∧ b ≠ s.current then
        (.ok "", { s with branches := s.branches.erase b })
      else (.error "cannot delete branch", s)
    | ["rev-parse", "--abbrev-ref", "HEAD"] => (.ok s.current, s)
    | ["branch", "--move", "--force", src, dst] =>
      if src ∈ s.branches then
        (.ok "", { s with
          branches := (s.branches.erase dst).map (fun b => if b = src then dst else b),
          current := if s.current = src then dst else s.current })
      else (.error "no such branch", s)
    | _ => (.ok "", s)

/-- Embedding of `add_remote_branch` (`git_commands.rs` lines 43-66).
`addFail` / `fetchFail` are the environment outcomes of the `remote add`
and `fetch` invocations.  The cleanup commands in the error arms are the
ones literally written in the source: on fetch failure `branch -D
local_branch`, on add failure `remote remove local_remote`; each is
followed by `?`, so a failing cleanup command propagates its own error. -/
def add_remote_branch (addFail fetchFail : Bool)
    (local_remote local_branch remote_remote remote_branch : String)
    (s : GitState) : Except String Unit × GitState :=
  match gitExec addFail ["remote", "add", local_remote, remote_remote] s with
  | (.ok _, s1) =>
    match gitExec fetchFail
        ["fetch", remote_remote, remote_branch ++ ":" ++ local_branch] s1 with
    | (.ok _, s2) => (.ok (), s2)
    | (.error err, s2) =>
      match gitExec false ["branch", "-D", local_branch] s2 with
      | (.ok _, s3) => (.error ("Could not fetch branch from remote: " ++ err), s3)
      | (.error e, s3) => (.error e, s3)
  | (.error err, s1) =>
    match gitExec false ["remote", "remove", local_remote] s1 with
    | (.ok _, s2) => (.error ("Could not add remote: " ++ err), s2)
    | (.error e, s2) => (.error e, s2)

/-- Embedding of `checkout_from_remote` (`git_commands.rs` lines 68-81):
record the current branch, check out `branch`; on checkout failure delete
the branch, remove the remote (each followed by `?`), then report. -/
def checkout_from_remote (checkoutFail : Bool) (branch remote : String)
    (s : GitState) : Except String String × GitState :=
  match gitExec false ["rev-parse", "--abbrev-ref", "HEAD"] s with
  | (.ok current_branch, s1) =>
    match gitExec checkoutFail ["checkout", branch] s1 with
    | (.ok _, s2) => (.ok current_branch, s2)
    | (.error err, s2) =>
      match gitExec false ["branch", "-D", branch] s2 with
      | (.ok _, s3) =>
        match gitExec false ["remote", "remove", remote] s3 with
        | (.ok _, s4) =>
          (.error ("Could not checkout branch: " ++ branch ++
            ", which belongs to remote " ++ remote ++ "\n" ++ err), s4)
        | (.error e, s4) => (.error e, s4)
      | (.error e, s3) => (.error e, s3)
  | (.error e, s1) => (.error e, s1)

/-- The staging sequence of the orchestrator (`run.rs` lines 52-59):
`add_remote_branch` followed by `checkout_from_remote`, each `?`-ed. -/
def stage (addFail fetchFail checkoutFail : Bool)
    (local_remote local_branch remote_remote remote_branch : String)
    (s : GitState) : Except String String × GitState :=
  match add_remote_branch addFail fetchFail
      local_remote local_branch remote_remote remote_branch s with
  | (.ok _, s1) => checkout_from_remote checkoutFail local_branch local_remote s1
  | (.error e, s1) => (.error e, s1)

/-! ## Merge resolver (`merge_into_main`, `git_commands.rs` lines 83-105) -/

/-- Is `pat` a suffix of the list?  Used to model Rust's
`str::ends_with`: for the ASCII pattern `".md"` a byte suffix is exactly a
character suffix of the decoded string. -/
def endsWithChars (pat : List Char) : List Char → Bool
  | [] => pat == []
  | c :: l => if (c :: l).length = pat.length then (c :: l) == pat else endsWithChars pat l

/-- Model of `file_with_conflict.ends_with(".md")`
(`git_commands.rs` line 92). -/
def endsWithMd (f : String) : Bool := endsWithChars ".md".toList f.toList

/-- The repository's merge-relevant state after a call to
`merge_into_main`: either back in the state before the merge attempt
(after `git merge --abort`), or with a merge in progress whose conflicted
paths were resolved to "ours" and staged (in order), or cleanly merged. -/
inductive RepoAfterMerge where
  | preMerge : RepoAfterMerge
  | mergedInProgress (stagedOurs : List String) : RepoAfterMerge
  | mergedClean : RepoAfterMerge
deriving Repr, DecidableEq

/-- The conflict loop of `merge_into_main` (`git_commands.rs` lines
91-101): walk the unmerged paths in order; a `.md` path is resolved with
`checkout --ours` and `add` (modelled as always succeeding on a conflicted
path); the first non-`.md` path triggers `merge --abort` and an error.
`staged` accumulates the paths resolved so far. -/
def resolveConflicts : List String → List String → Except String String × RepoAfterMerge
  | [], staged =>
    (.ok "Merged {remote_branch} successfully and disregarded conflicts",
      .mergedInProgress staged)
  | f :: fs, staged =>
    if endsWithMd f then resolveConflicts fs (staged ++ [f])
    else (.error ("Unresolved conflict in " ++ f), .preMerge)

/-- Embedding of `merge_into_main`.  `mergeFails` is the exit status of
`git merge local_branch --no-commit --no-ff`; when it fails, `conflicts`
is the line list produced by `git diff --name-only --diff-filter=U`
(modelled as succeeding).  Note the success string of the conflict path is
the source's literal (a plain, non-interpolated Rust string). -/
def merge_into_main (mergeFails : Bool) (conflicts : List String)
    (local_branch remote_branch : String) : Except String String × RepoAfterMerge :=
  match mergeFails, local_branch with
  | false, _ => (.ok ("Merged " ++ remote_branch ++ " successfully"), .mergedClean)
  | true, _ => resolveConflicts conflicts []

/-! ## Per-contribution loop (`run.rs` lines 65-98) -/

/-- What the loop body reports for one configured pull request: a success
line, a per-contribution merge failure, or a per-contribution fetch
failure (the latter two are `fail!` reports followed by `continue`). -/
inductive PREvent where
  | merged (pr : String) : PREvent
  | mergeFailed (pr : String) : PREvent
  | fetchFailed (pr : String) : PREvent
deriving Repr, DecidableEq

/-- The contribution identifier an event is about. -/
def prId : PREvent → String
  | .merged pr => pr
  | .mergeFailed pr => pr
  | .fetchFailed pr => pr

/-- Embedding of the `for pull_request in config.pull_requests` loop
(`run.rs` lines 65-98).  `fetch` is the outcome of `fetch_pull_request`
(network, not part of the provided sources; its `Except` result is all the
loop inspects) and `merge` the outcome of `merge_pull_request`, which runs
git commands and hence threads the repository state.  Both error arms
report and `continue`; the loop itself can never abort the run, which is
visible in its return type (no `Except`). -/
def processPRs (fetch : String → Except String Nat)
    (merge : Nat → GitState → Except String Unit × GitState) :
    List String → GitState → List PREvent × GitState
  | [], s => ([], s)
  | pr :: prs, s =>
    match fetch pr with
    | .ok info =>
      match merge info s with
      | (.ok _, s1) =>
        let rest := processPRs fetch merge prs s1
        (.merged pr :: rest.1, rest.2)
      | (.error _, s1) =>
        let rest := processPRs fetch merge prs s1
        (.mergeFailed pr :: rest.1, rest.2)
    | .error _ =>
      let rest := processPRs fetch merge prs s
      (.fetchFailed pr :: rest.1, rest.2)

/-! ## Directory-creation guard and rollback (`run.rs` lines 100-105) -/

/-- Embedding of the `if let Err(err) = fs::create_dir(...)` guard
(`run.rs` lines 100-105).  `createDirFails` is the outcome of the
directory creation.  On failure the source runs, in order, `checkout
previous_branch`, `remote remove local_remote`, `branch --delete --force
local_branch` — each followed by `?`, so a failing rollback command
surfaces its own error — and then returns the directory error, aborting
`run`.  The third component is the trace of git argument vectors actually
executed, in order. -/
def dirGuardRollback (createDirFails : Bool) (dirErr : String)
    (previous_branch local_remote local_branch : String) (s : GitState) :
    Except String Unit × GitState × List (List String) :=
  if createDirFails then
    match gitExec false ["checkout", previous_branch] s with
    | (.ok _, s1) =>
      match gitExec false ["remote", "remove", local_remote] s1 with
      | (.ok _, s2) =>
        match gitExec false ["branch", "--delete", "--force", local_branch] s2 with
        | (.ok _, s3) =>
          (.error ("Could not create directory {CONFIG_ROOT}: " ++ dirErr), s3,
            [["checkout", previous_branch], ["remote", "remove", local_remote],
             ["branch", "--delete", "--force", local_branch]])
        | (.error e, s3) =>
          (.error e, s3,
            [["checkout", previous_branch], ["remote", "remove", local_remote],
             ["branch", "--delete", "--force", local_branch]])
      | (.error e, s2) =>
        (.error e, s2,
          [["checkout", previous_branch], ["remote", "remove", local_remote]])
    | (.error e, s1) => (.error e, s1, [["checkout", previous_branch]])
  else (.ok (), s, [])

/-! ## Final confirmation step (`run.rs` lines 157-190) -/

/-- Result of the final confirmation step: either the function returned
(`Ok(())`, or `Err` from a failing rename) or the process exited with the
given code after printing the manual command.  Both carry the final git
state and the trace of git argument vectors executed by the step. -/
inductive FinalOutcome where
  | completed (r : Except String Unit) (s : GitState) (trace : List (List String)) :
      FinalOutcome
  | exited (code : Nat) (printedCommand : String) (s : GitState)
      (trace : List (List String)) : FinalOutcome
deriving Repr, DecidableEq

/-- Embedding of the confirmation prompt and the guarded overwrite
(`run.rs` lines 157-190).  On confirmation, `git branch --move --force
temporary_branch local_branch` runs (`renameFail` is its environment
outcome).  On decline, the source prints the manual command — the literal
`format!("  git branch --move --force {temporary_branch} {}",
config.local_branch)` (ANSI styling around it is not modelled) — and calls
`std::process::exit(1)`; no git command runs. -/
def finalConfirmStep (confirmation renameFail : Bool)
    (temporary_branch local_branch : String) (s : GitState) : FinalOutcome :=
  if confirmation then
    match gitExec renameFail
        ["branch", "--move", "--force", temporary_branch, local_branch] s with
    | (.ok _, s1) =>
      .completed (.ok ()) s1 [["branch", "--move", "--force", temporary_branch, local_branch]]
    | (.error e, s1) =>
      .completed (.error e) s1
        [["branch", "--move", "--force", temporary_branch, local_branch]]
  else
    .exited 1 ("  git branch --move --force " ++ temporary_branch ++ " " ++ local_branch)
      s []

/-! ## Logical patch name (`run.rs` lines 111-117)

The source computes the logical name of a restored file as
`file_name.to_str().and_then(|n| n.get(0..n.len() - 6)).unwrap_or_default()`.
`len` is the UTF-8 byte length of the name, `len - 6` is `usize`
subtraction (wrapping modulo `2 ^ 64` in release builds), and
`str::get(0..k)` yields the first `k` bytes when `k` is at most the length
and falls on a character boundary, and `None` otherwise.  We model the
name as its decoded character list and byte positions explicitly. -/

/-- UTF-8 byte length of a character list. -/
def utf8Len (cs : List Char) : Nat := (cs.map Char.utf8Size).sum

/-- `takeBytes cs k` mirrors `str::get(0..k)`: the characters making up
the first `k` bytes, or `none` when `k` exceeds the byte length or does
not fall on a character boundary. -/
def takeBytes : List Char → Nat → Option (List Char)
  | _, 0 => some []
  | [], _ + 1 => none
  | c :: cs, n + 1 =>
    if c.utf8Size ≤ n + 1 then (takeBytes cs (n + 1 - c.utf8Size)).map (fun p => c :: p)
    else none

/-- The width of `usize` on the 64-bit targets the tool ships for. -/
def USIZE : Nat := 2 ^ 64

/-- Embedding of the logical-name computation (`run.rs` lines 112-115):
drop the last 6 bytes (the length of `".patch"`) unconditionally, with
wrapping `usize` subtraction, and fall back to the empty string when the
slice is out of range or off a character boundary (`unwrap_or_default`). -/
def logicalName (cs : List Char) : List Char :=
  match takeBytes cs ((utf8Len cs + USIZE - 6) % USIZE) with
  | some p => p
  | none => []

/-! ## Restore-and-patch loop (`run.rs` lines 107-141) -/

/-- What the restore loop records for one backed-up file. -/
inductive RestoreEvent where
  | restored (name : String) : RestoreEvent
  | patchApplied (name : String) : RestoreEvent
deriving Repr, DecidableEq

/-- Embedding of the `for (file_name, _file, contents) in backed_up_files`
loop (`run.rs` lines 107-141).  `restoreRes` is the outcome of
`restore_backup` (not part of the provided sources), `amRes` the outcome
of `git am --keep-cr --signoff <file>.patch`, `logRes` the outcome of
`git log -1 --format=%B`.  Every fallible call is followed by `?` in the
source, so the first failure makes the whole loop — and with it `run` —
return that error; in particular a `git am` failure aborts with the
context `"Could not apply patch {file_name}, skipping"`. -/
def restoreLoop (restoreRes : String → Except String Unit)
    (amRes : String → Except String Unit) (logRes : String → Except String String)
    (patches : Option (List String)) :
    List (List Char × String) → Except String (List RestoreEvent)
  | [] => .ok []
  | (fname, _contents) :: files =>
    match restoreRes (String.mk fname) with
    | .error _ => .error "Could not restore backups"
    | .ok _ =>
      match patches with
      | none =>
        (restoreLoop restoreRes amRes logRes none files).map
          (fun es => .restored (String.mk fname) :: es)
      | some ps =>
        let name := String.mk (logicalName fname)
        if name ∈ ps then
          match amRes name with
          | .error _ => .error ("Could not apply patch " ++ name ++ ", skipping")
          | .ok _ =>
            match logRes name with
            | .error e => .error e
            | .ok _msg =>
              (restoreLoop restoreRes amRes logRes (some ps) files).map
                (fun es => .restored (String.mk fname) :: .patchApplied name :: es)
        else
          (restoreLoop restoreRes amRes logRes (some ps) files).map
            (fun es => .restored (String.mk fname) :: es)

/-! ## Backup/Restore manager (spec §4.5) -/

/-- Modelled from the spec: the Backup/Restore Manager (`backup_files`
and `restore_backup`, in `src/backup.rs`) is not among the provided
sources — only its caller `run.rs` is.  Per §4.5, `snapshot(directory)`
reads every regular file of the flat directory fully into memory before
any further mutation.  A directory is modelled as a flat association list
of file names to byte contents. -/
def snapshot (dir : List (String × List Nat)) : List (String × List Nat) :=
  dir.map (fun e => (e.1, e.2))

/-- Writing one file into a flat directory listing: overwrite the entry
with the same name, or append a fresh entry. -/
def writeEntry : List (String × List Nat) → String → List Nat → List (String × List Nat)
  | [], n, c => [(n, c)]
  | e :: es, n, c => if e.1 = n then (n, c) :: es else e :: writeEntry es n c

/-- Modelled from the spec: `restore(entries, destination_root)` (§4.5)
writes each entry back in order, recreating the destination directory if
it no longer exists (`none`). -/
def restoreBackup (entries : List (String × List Nat))
    (dest : Option (List (String × List Nat))) : List (String × List Nat) :=
  entries.foldl (fun d e => writeEntry d e.1 e.2) (dest.getD [])

/-- Contents of a named file in a flat directory listing. -/
def lookupFile : List (String × List Nat) → String → Option (List Nat)
  | [], _ => none
  | e :: es, n => if e.1 = n then some e.2 else lookupFile es n

/-! ## Theorems -/

/-- Claim C1: the claim states that whenever the staging sequence fails,
the remote and branch lists are restored (no leaked ephemeral objects).
The code violates this: starting from a repository with no remotes, when
`remote add` succeeds and the fetch fails, `add_remote_branch` runs
`branch -D` on the never-created local branch (whose failure `?`-propagates)
and leaves the just-added ephemeral remote `"r1"` in the remote list, so
`stage` returns an error with a changed remote list. -/
theorem stage_fetch_failure_leaks_remote :
    stage false true false "r1" "b1" "url" "main" ⟨[], ["main"], "main"⟩ =
      (.error "cannot delete branch", ⟨["r1"], ["main"], "main"⟩) ∧
    (["r1"] : List String) ≠ [] := by
  exact ⟨by decide, by decide⟩

/-- Claim C4: the claim (and the spec's algorithm) says a fetch failure
removes the just-added remote, and an add failure performs no teardown.
The code has the two cleanup actions swapped.  First conjunct: after a
successful `remote add` and a failed fetch, the final state still contains
the ephemeral remote `"r1"` (the code instead ran `branch -D` on the
never-created branch, whose error is what gets returned).  Second
conjunct: when `remote add` itself fails (here because the name already
exists), the code runs `remote remove`, tearing down the pre-existing
remote `"r1"`. -/
theorem add_remote_branch_teardown_swapped :
    add_remote_branch false true "r1" "b1" "url" "main" ⟨[], ["main"], "main"⟩ =
      (.error "cannot delete branch", ⟨["r1"], ["main"], "main"⟩) ∧
    add_remote_branch false false "r1" "b1" "url" "main" ⟨["r1"], ["main"], "main"⟩ =
      (.error "Could not add remote: remote already exists", ⟨[], ["main"], "main"⟩) := by
  exact ⟨by decide, by decide⟩

/-- Claim C9: when `git merge` fails but `diff --name-only --diff-filter=U`
reports no unmerged paths, `merge_into_main` returns the success outcome
(the source's literal, non-interpolated string), with no path resolved and
no `merge --abort` issued (the state is the in-progress merge, not the
pre-merge state). -/
theorem merge_into_main_empty_conflicts_ok (local_branch remote_branch : String) :
    merge_into_main true [] local_branch remote_branch =
      (.ok "Merged {remote_branch} successfully and disregarded conflicts",
        .mergedInProgress []) := rfl

/-- Claim C3: the claim says a patch-apply failure is reported for the
file and the run continues with the remaining files.  The code violates
this: every `git am` call is followed by `?`, so the first failure makes
the restore loop (and `run`) return the error — here, with two backed-up
files whose logical names `"a"` and `"b"` are both configured patches and
`git am` failing only for `"a"`, the loop returns the error (whose context
string even says "skipping") and the second file is never processed. -/
theorem restoreLoop_patch_failure_aborts :
    restoreLoop (fun _ => .ok ()) (fun n => if n = "a" then .error "am failed" else .ok ())
      (fun _ => .ok "commit message") (some ["a", "b"])
      [("a.patch".toList, "contents-a"), ("b.patch".toList, "contents-b")] =
      .error "Could not apply patch a, skipping" := by
  decide

/-- If every conflicted path ends in `.md`, the conflict loop resolves
each in order and reports success, with the staged accumulator extended by
the whole list. -/
theorem resolveConflicts_all_md (fs : List String) :
    ∀ staged, (∀ f ∈ fs, endsWithMd f = true) →
      resolveConflicts fs staged =
        (.ok "Merged {remote_branch} successfully and disregarded conflicts",
          .mergedInProgress (staged ++ fs)) := by
  induction fs with
  | nil => intro staged _; simp [resolveConflicts]
  | cons f fs ih =>
    intro staged h
    have hf : endsWithMd f = true := h f (by simp)
    rw [resolveConflicts, if_pos hf, ih (staged ++ [f]) (fun g hg => h g (by simp [hg]))]
    simp

/-- If some conflicted path does not end in `.md`, the conflict loop stops
at the first such path, aborts the merge, and returns an error naming it. -/
theorem resolveConflicts_first_bad (fs : List String) :
    ∀ staged f0, f0 ∈ fs → endsWithMd f0 = false →
      ∃ g, g ∈ fs ∧ endsWithMd g = false ∧
        resolveConflicts fs staged = (.error ("Unresolved conflict in " ++ g), .preMerge) := by
  induction fs with
  | nil => intro _ f0 hmem _; cases hmem
  | cons f fs ih =>
    intro staged f0 hmem hbad
    by_cases hf : endsWithMd f = true
    · have hne : f0 ≠ f := by
        intro he; rw [he, hf] at hbad; cases hbad
      have hmem2 : f0 ∈ fs := by
        rcases List.mem_cons.mp hmem with he | hm
        · exact absurd he hne
        · exact hm
      obtain ⟨g, hg1, hg2, hg3⟩ := ih (staged ++ [f]) f0 hmem2 hbad
      refine ⟨g, by simp [hg1], hg2, ?_⟩
      rw [resolveConflicts, if_pos hf, hg3]
    · have hf2 : endsWithMd f = false := by
        cases hx : endsWithMd f with
        | false => rfl
        | true => exact absurd hx hf
      refine ⟨f, by simp, hf2, ?_⟩
      rw [resolveConflicts, if_neg (by rw [hf2]; exact Bool.false_ne_true)]

/-- Claim C2: on a conflicted merge (`git merge` failed with a nonempty
unmerged-path list), if every conflicted path ends in `.md` then
`merge_into_main` returns a non-error outcome with every such path
resolved to "ours" and staged (in order); if some conflicted path does not
end in `.md`, the merge is aborted, the repository is back in its
pre-merge-attempt state, and the returned error names a non-`.md`
conflicted path. -/
theorem merge_into_main_conflict_policy (conflicts : List String)
    (local_branch remote_branch : String) (_hne : conflicts ≠ []) :
    ((∀ f ∈ conflicts, endsWithMd f = true) →
      merge_into_main true conflicts local_branch remote_branch =
        (.ok "Merged {remote_branch} successfully and disregarded conflicts",
          .mergedInProgress conflicts)) ∧
    (∀ f0 ∈ conflicts, endsWithMd f0 = false →
      ∃ g, g ∈ conflicts ∧ endsWithMd g = false ∧
        merge_into_main true conflicts local_branch remote_branch =
          (.error ("Unresolved conflict in " ++ g), .preMerge)) := by
  constructor
  · intro h
    have hres := resolveConflicts_all_md conflicts [] h
    simpa [merge_into_main] using hres
  · intro f0 hmem hbad
    obtain ⟨g, h1, h2, h3⟩ := resolveConflicts_first_bad conflicts [] f0 hmem hbad
    exact ⟨g, h1, h2, by simpa [merge_into_main] using h3⟩

/-- Witness for C2: a merge conflicted exactly in `README.md` and
`docs/intro.md` is auto-resolved, both paths staged with "ours". -/
theorem merge_into_main_conflict_policy_witness :
    merge_into_main true ["README.md", "docs/intro.md"] "b1" "feature" =
      (.ok "Merged {remote_branch} successfully and disregarded conflicts",
        .mergedInProgress ["README.md", "docs/intro.md"]) :=
  (merge_into_main_conflict_policy ["README.md", "docs/intro.md"] "b1" "feature"
    (by decide)).1 (by decide)

/-- Claim C5: when recreating the configuration directory fails after the
ephemeral branch was created and checked out (the current branch is the
ephemeral branch, the previous branch exists, the ephemeral remote and
branch exist), the guard executes exactly the compensating sequence
`checkout previous_branch`, `remote remove local_remote`,
`branch --delete --force local_branch`, in that order, and returns the
directory-creation error — aborting `run`.  The final state is back on the
previous branch with both ephemeral objects gone. -/
theorem dirGuard_rollback_sequence
    (dirErr previous_branch local_remote local_branch : String) (s : GitState)
    (hprev : previous_branch ∈ s.branches) (_hcur : s.current = local_branch)
    (hne : previous_branch ≠ local_branch) (hrem : local_remote ∈ s.remotes)
    (hbr : local_branch ∈ s.branches) :
    dirGuardRollback true dirErr previous_branch local_remote local_branch s =
      (.error ("Could not create directory {CONFIG_ROOT}: " ++ dirErr),
        { remotes := s.remotes.erase local_remote,
          branches := s.branches.erase local_branch,
          current := previous_branch },
        [["checkout", previous_branch], ["remote", "remove", local_remote],
         ["branch", "--delete", "--force", local_branch]]) := by
  have hne2 : local_branch ≠ previous_branch := Ne.symm hne
  simp [dirGuardRollback, gitExec, hprev, hrem, hbr, hne2]

/-- Witness for C5: concrete repository with the ephemeral remote `r1`
and branch `b1` checked out; the rollback restores `main` and removes
both. -/
theorem dirGuard_rollback_sequence_witness :
    dirGuardRollback true "permission denied" "main" "r1" "b1"
        ⟨["r1"], ["main", "b1"], "b1"⟩ =
      (.error "Could not create directory {CONFIG_ROOT}: permission denied",
        { remotes := (["r1"] : List String).erase "r1",
          branches := (["main", "b1"] : List String).erase "b1",
          current := "main" },
        [["checkout", "main"], ["remote", "remove", "r1"],
         ["branch", "--delete", "--force", "b1"]]) :=
  dirGuard_rollback_sequence "permission denied" "main" "r1" "b1"
    ⟨["r1"], ["main", "b1"], "b1"⟩ (by decide) (by decide) (by decide) (by decide) (by decide)

/-- Claim C6: when the user declines the final confirmation, no git
command is executed (empty trace — in particular no rename, so the
temporary branch and the target branch are untouched, the state is
unchanged), the process exits with status 1, and the printed manual
command is `"  git branch --move --force <temporary> <target>"` — exactly
the `["branch", "--move", "--force", temporary, target]` invocation that
the confirmation arm executes, preceded by the word `git`. -/
theorem finalConfirm_decline_behavior (renameFail : Bool)
    (temporary_branch local_branch : String) (s : GitState) :
    finalConfirmStep false renameFail temporary_branch local_branch s =
      .exited 1
        ("  git branch --move --force " ++ temporary_branch ++ " " ++ local_branch) s [] ∧
    ∃ r s1, finalConfirmStep true renameFail temporary_branch local_branch s =
      .completed r s1 [["branch", "--move", "--force", temporary_branch, local_branch]] := by
  refine ⟨rfl, ?_⟩
  match h : gitExec renameFail
      ["branch", "--move", "--force", temporary_branch, local_branch] s with
  | (.ok v, s1) => exact ⟨.ok (), s1, by simp [finalConfirmStep, h]⟩
  | (.error e, s1) => exact ⟨.error e, s1, by simp [finalConfirmStep, h]⟩

/-- The loop of `run.rs` lines 65-98 emits exactly one event per
configured pull request, in configuration order, no matter which fetches
or merges fail. -/
theorem processPRs_map_prId (fetch : String → Except String Nat)
    (merge : Nat → GitState → Except String Unit × GitState) :
    ∀ (prs : List String) (s : GitState),
      (processPRs fetch merge prs s).1.map prId = prs := by
  intro prs
  induction prs with
  | nil => intro s; rfl
  | cons pr prs ih =>
    intro s
    cases hf : fetch pr with
    | ok info =>
      match hm : merge info s with
      | (.ok v, s1) => simp [processPRs, hf, hm, prId, ih]
      | (.error e, s1) => simp [processPRs, hf, hm, prId, ih]
    | error e => simp [processPRs, hf, prId, ih]

/-- A pull request whose fetch fails gets a `fetchFailed` report in the
event list, from whatever state the loop reaches it in. -/
theorem processPRs_fetchFailed_mem (fetch : String → Except String Nat)
    (merge : Nat → GitState → Except String Unit × GitState) :
    ∀ (prs : List String) (s : GitState) (pr : String), pr ∈ prs →
      (fetch pr).isOk = false →
      PREvent.fetchFailed pr ∈ (processPRs fetch merge prs s).1 := by
  intro prs
  induction prs with
  | nil => intro s pr hmem _; cases hmem
  | cons q prs ih =>
    intro s pr hmem hfail
    rcases List.mem_cons.mp hmem with he | hm
    · subst he
      cases hf : fetch pr with
      | ok info => rw [hf] at hfail; cases hfail
      | error e => simp [processPRs, hf]
    · cases hf : fetch q with
      | ok info =>
        match hm2 : merge info s with
        | (.ok v, s1) =>
          simp only [processPRs, hf, hm2, List.mem_cons]
          exact Or.inr (ih s1 pr hm hfail)
        | (.error e, s1) =>
          simp only [processPRs, hf, hm2, List.mem_cons]
          exact Or.inr (ih s1 pr hm hfail)
      | error e =>
        simp only [processPRs, hf, List.mem_cons]
        exact Or.inr (ih s pr hm hfail)

/-- Claim C7: for every configured sequence of pull-request identifiers
and every behaviour of the contribution fetcher and of the merge step, the
loop produces exactly one event per configured identifier, in order (so no
failure aborts processing of the remaining contributions — the loop's
return type cannot even carry an error), and every identifier whose fetch
fails is reported with a `fetchFailed` event (the `fail!` + `continue`
arm). -/
theorem processPRs_continues_on_failure (fetch : String → Except String Nat)
    (merge : Nat → GitState → Except String Unit × GitState)
    (prs : List String) (s : GitState) :
    (processPRs fetch merge prs s).1.map prId = prs ∧
    (∀ pr ∈ prs, (fetch pr).isOk = false →
      PREvent.fetchFailed pr ∈ (processPRs fetch merge prs s).1) :=
  ⟨processPRs_map_prId fetch merge prs s,
   fun pr hmem hfail => processPRs_fetchFailed_mem fetch merge prs s pr hmem hfail⟩

/-- Witness for C7: with pull requests `["1", "2"]` where every fetch
fails, both identifiers are still processed and reported. -/
theorem processPRs_continues_on_failure_witness :
    (processPRs (fun _ => .error "network down") (fun _ s => (.ok (), s)) ["1", "2"]
        ⟨[], ["main"], "main"⟩).1.map prId = ["1", "2"] ∧
    PREvent.fetchFailed "2" ∈ (processPRs (fun _ => .error "network down")
        (fun _ s => (.ok (), s)) ["1", "2"] ⟨[], ["main"], "main"⟩).1 := by
  refine ⟨(processPRs_continues_on_failure (fun _ => .error "network down")
      (fun _ s => (.ok (), s)) ["1", "2"] ⟨[], ["main"], "main"⟩).1, ?_⟩
  exact (processPRs_continues_on_failure (fun _ => .error "network down")
      (fun _ s => (.ok (), s)) ["1", "2"] ⟨[], ["main"], "main"⟩).2 "2" (by decide) (by rfl)

/-- Byte length distributes over concatenation. -/
theorem utf8Len_append (p q : List Char) : utf8Len (p ++ q) = utf8Len p + utf8Len q := by
  simp [utf8Len]

/-- Byte length of a cons. -/
theorem utf8Len_cons (c : Char) (cs : List Char) :
    utf8Len (c :: cs) = c.utf8Size + utf8Len cs := by
  simp [utf8Len]

/-- Slicing past the end of the string yields `none` (as `str::get`
does). -/
theorem takeBytes_gt_len (cs : List Char) : ∀ k, utf8Len cs < k → takeBytes cs k = none := by
  induction cs with
  | nil =>
    intro k hk
    match k with
    | 0 => cases hk
    | n + 1 => rfl
  | cons c cs ih =>
    intro k hk
    have hpos : 0 < c.utf8Size := Char.utf8Size_pos c
    rw [utf8Len_cons] at hk
    match k with
    | 0 => omega
    | n + 1 =>
      rw [takeBytes]
      by_cases hle : c.utf8Size ≤ n + 1
      · rw [if_pos hle, ih (n + 1 - c.utf8Size) (by omega)]
        rfl
      · rw [if_neg hle]

/-- A successful slice is an actual byte-length-`k` front of the
string. -/
theorem takeBytes_some (cs : List Char) : ∀ k p, takeBytes cs k = some p →
    ∃ q, cs = p ++ q ∧ utf8Len p = k := by
  induction cs with
  | nil =>
    intro k p h
    match k with
    | 0 =>
      rw [takeBytes] at h
      cases h
      exact ⟨[], rfl, rfl⟩
    | n + 1 => cases h
  | cons c cs ih =>
    intro k p h
    match k with
    | 0 =>
      rw [takeBytes] at h
      cases h
      exact ⟨c :: cs, rfl, rfl⟩
    | n + 1 =>
      rw [takeBytes] at h
      by_cases hle : c.utf8Size ≤ n + 1
      · rw [if_pos hle] at h
        match hmap : takeBytes cs (n + 1 - c.utf8Size) with
        | none => rw [hmap] at h; cases h
        | some p2 =>
          rw [hmap] at h
          cases h
          obtain ⟨q, hq, hlen⟩ := ih _ _ hmap
          refine ⟨q, by simp [hq], ?_⟩
          simp only [utf8Len_cons, hlen]
          omega
      · rw [if_neg hle] at h
        cases h

/-- Claim C10: the logical name used to match a restored file against the
configured patch set is computed by unconditionally dropping the last 6
bytes of the filename — no check that the name ends in `".patch"` — and
is the empty string whenever the name is shorter than 6 bytes (the
wrapping `usize` subtraction sends the slice bound past the end) or the
cut is not a character boundary. -/
theorem logicalName_drops_six_bytes (cs : List Char) (hlen : utf8Len cs < USIZE) :
    (utf8Len cs < 6 → logicalName cs = []) ∧
    (6 ≤ utf8Len cs → takeBytes cs (utf8Len cs - 6) = none → logicalName cs = []) ∧
    (∀ p, 6 ≤ utf8Len cs → takeBytes cs (utf8Len cs - 6) = some p →
      logicalName cs = p ∧ ∃ q, cs = p ++ q ∧ utf8Len q = 6) := by
  have h64 : (6 : Nat) < USIZE := by decide
  refine ⟨?_, ?_, ?_⟩
  · intro h6
    have hcut : (utf8Len cs + USIZE - 6) % USIZE = utf8Len cs + USIZE - 6 :=
      Nat.mod_eq_of_lt (by omega)
    rw [logicalName, hcut, takeBytes_gt_len cs _ (by omega)]
  · intro h6 hnone
    have hcut : (utf8Len cs + USIZE - 6) % USIZE = utf8Len cs - 6 := by
      have h1 : utf8Len cs + USIZE - 6 = (utf8Len cs - 6) + USIZE := by omega
      rw [h1, Nat.add_mod_right, Nat.mod_eq_of_lt (by omega)]
    rw [logicalName, hcut, hnone]
  · intro p h6 hsome
    have hcut : (utf8Len cs + USIZE - 6) % USIZE = utf8Len cs - 6 := by
      have h1 : utf8Len cs + USIZE - 6 = (utf8Len cs - 6) + USIZE := by omega
      rw [h1, Nat.add_mod_right, Nat.mod_eq_of_lt (by omega)]
    constructor
    · rw [logicalName, hcut, hsome]
    · obtain ⟨q, hq, hp⟩ := takeBytes_some cs _ p hsome
      refine ⟨q, hq, ?_⟩
      have := utf8Len_append p q
      rw [← hq] at this
      omega

/-- Witness for C10: the 8-byte, non-`".patch"` filename `"notes.md"` is
still cut 6 bytes from the end, yielding logical name `"no"`. -/
theorem logicalName_drops_six_bytes_witness :
    logicalName "notes.md".toList = "no".toList :=
  ((logicalName_drops_six_bytes "notes.md".toList (by decide)).2.2 "no".toList
    (by decide) (by decide)).1

/-- Writing a file and then reading it back yields the written
contents. -/
theorem lookupFile_writeEntry_self (d : List (String × List Nat)) (n : String)
    (c : List Nat) : lookupFile (writeEntry d n c) n = some c := by
  induction d with
  | nil => simp [writeEntry, lookupFile]
  | cons e es ih =>
    by_cases h : e.1 = n
    · simp [writeEntry, h, lookupFile]
    · simp [writeEntry, h, lookupFile, ih]

/-- Writing one file does not change the contents seen under any other
name. -/
theorem lookupFile_writeEntry_ne (d : List (String × List Nat)) (n m : String)
    (c : List Nat) (hne : m ≠ n) :
    lookupFile (writeEntry d n c) m = lookupFile d m := by
  induction d with
  | nil => simp [writeEntry, lookupFile, Ne.symm hne]
  | cons e es ih =>
    by_cases h : e.1 = n
    · simp [writeEntry, h, lookupFile, Ne.symm hne]
    · by_cases h2 : e.1 = m
      · simp [writeEntry, h, lookupFile, h2, hne]
      · simp [writeEntry, h, lookupFile, h2, ih]

/-- Replaying entries none of which carry the given name leaves that
name's contents unchanged. -/
theorem lookupFile_fold_not_mem (entries : List (String × List Nat)) :
    ∀ (d : List (String × List Nat)) (n : String), n ∉ entries.map Prod.fst →
      lookupFile (entries.foldl (fun d e => writeEntry d e.1 e.2) d) n = lookupFile d n := by
  induction entries with
  | nil => intro d n _; rfl
  | cons e es ih =>
    intro d n hn
    have h1 : n ≠ e.1 := by
      intro he; exact hn (by simp [he])
    have h2 : n ∉ es.map Prod.fst := by
      intro hm; exact hn (by simp [hm])
    rw [List.foldl_cons, ih _ n h2, lookupFile_writeEntry_ne d e.1 n e.2 h1]

/-- Replaying entries with pairwise-distinct names makes each entry's name
read back as that entry's contents, whatever the starting directory. -/
theorem lookupFile_fold_mem (entries : List (String × List Nat)) :
    ∀ (d : List (String × List Nat)) (n : String) (c : List Nat),
      (entries.map Prod.fst).Nodup → (n, c) ∈ entries →
      lookupFile (entries.foldl (fun d e => writeEntry d e.1 e.2) d) n = some c := by
  induction entries with
  | nil => intro _ _ _ _ hmem; cases hmem
  | cons e es ih =>
    intro d n c hnd hmem
    obtain ⟨en, ec⟩ := e
    have hndc : (en :: es.map Prod.fst).Nodup := by simpa using hnd
    have hnd2 : (es.map Prod.fst).Nodup := hndc.of_cons
    rcases List.mem_cons.mp hmem with he | hm
    · injection he with h1 h2
      subst h1
      subst h2
      have hn1 : n ∉ es.map Prod.fst := (List.nodup_cons.mp hndc).1
      rw [List.foldl_cons]
      rw [lookupFile_fold_not_mem es _ n hn1]
      exact lookupFile_writeEntry_self d n c
    · rw [List.foldl_cons]
      exact ih _ n c hnd2 hm

/-- Claim C8 (spec-modelled, §4.5): restoring the entries produced by
snapshotting a flat directory of regular files — whose names are pairwise
distinct, as filesystem names are — reproduces byte-identical contents for
every file present at snapshot time, for any state of the destination,
including a deleted (`none`) or recreated directory. -/
theorem restore_snapshot_roundtrip (dir : List (String × List Nat))
    (dest : Option (List (String × List Nat)))
    (hnd : (dir.map Prod.fst).Nodup) :
    ∀ name contents, (name, contents) ∈ dir →
      lookupFile (restoreBackup (snapshot dir) dest) name = some contents := by
  intro n c hmem
  have hsnap : snapshot dir = dir := by simp [snapshot]
  rw [restoreBackup, hsnap]
  exact lookupFile_fold_mem dir _ n c hnd hmem

/-- Witness for C8: a two-file configuration directory, deleted between
snapshot and restore, reads back its original contents. -/
theorem restore_snapshot_roundtrip_witness :
    lookupFile (restoreBackup (snapshot [("a.patch", [1, 2]), ("b.md", [3])]) none)
      "a.patch" = some [1, 2] :=
  restore_snapshot_roundtrip [("a.patch", [1, 2]), ("b.md", [3])] none (by decide)
    "a.patch" [1, 2] (by decide)

end Patchy
